import Mathlib

/-!
Verification of `ethcore/private-tx/src/key_server_keys.rs` (parity-ethereum).

The embedding below models the data and operations of that file:

* 256-bit key identifiers (`H256`) and 160-bit addresses (`Address`) are
  big-endian byte sequences, modelled as `List Nat` of length 32 and 20.
* The codec functions `key_to_address` / `address_to_key` are translated
  byte-for-byte.
* The stateful provider `SecretStoreKeys` is modelled by explicit state
  passing; the blockchain client (contract-call gateway and registry
  resolver) and the ABI encoder/decoder are external collaborators and
  appear as function-valued parameters.
* The lock discipline of `update_acl_contract` is modelled by the sequence
  of lock acquire/release events that the guard scopes in the source
  produce.
-/

namespace KeyServerKeys

/-- Big-endian byte sequence (each entry one byte). -/
abbrev Bytes := List Nat

/-- Modelled from the spec: `Address::from_slice` of the era's
`ethereum-types` crate (an external collaborator, not part of this file's
source) zero-initialises a 20-byte address and copies the first
`min 20 src.length` bytes of the slice into its leading bytes — the spec
describes the result as the source bytes "placed as a ContractAddress"
with "implicit padding". -/
def addressFromSlice (src : Bytes) : Bytes :=
  src.take 20 ++ List.replicate (20 - (src.take 20).length) 0

/-- Modelled from the spec: `H256::from_slice`, with the same lenient
copy-min semantics as `addressFromSlice` but at width 32. -/
def h256FromSlice (src : Bytes) : Bytes :=
  src.take 32 ++ List.replicate (32 - (src.take 32).length) 0

/-- Modelled from the spec: the `H160 → H256` conversion
(`contract_address.into()` in the source) places the address's 20 bytes in
the low-order (trailing) bytes of the 32-byte identifier, "padding the
remaining high-order bytes with zero". -/
def h160ToH256 (a : Bytes) : Bytes :=
  List.replicate 12 0 ++ a

/-- `pub fn key_to_address(key: &H256) -> Address {
      Address::from_slice(&key.to_vec()[..10])
    }`
Takes the first 10 bytes of the key and builds an address from them. -/
def key_to_address (key : Bytes) : Bytes :=
  addressFromSlice (key.take 10)

/-- `key_to_address` with the partiality of the Rust slice `&v[..10]` made
explicit: the slice expression panics when the key holds fewer than 10
bytes; every other step is total. -/
def key_to_address_checked (key : Bytes) : Option Bytes :=
  if 10 ≤ key.length then some (addressFromSlice (key.take 10)) else none

/-- `pub fn address_to_key(contract_address: &Address) -> H256 {
      let contract_address_extended: H256 = contract_address.into();
      H256::from_slice(&contract_address_extended)
    }` -/
def address_to_key (contract_address : Bytes) : Bytes :=
  h256FromSlice (h160ToH256 contract_address)

example : key_to_address (1 :: List.replicate 31 2) =
    1 :: List.replicate 9 2 ++ List.replicate 10 0 := by decide
example : address_to_key (List.replicate 20 7) =
    List.replicate 12 0 ++ List.replicate 20 7 := by decide
example : key_to_address (address_to_key (170 :: List.replicate 19 0)) =
    List.replicate 20 0 := by decide

/-- `ethcore::client::BlockId`: identifies the chain state a query runs
against. -/
inductive BlockId where
  | hash (h : Bytes)
  | number (n : Nat)
  | earliest
  | latest
deriving DecidableEq

/-- `const ACL_CHECKER_CONTRACT_REGISTRY_NAME: &'static str =
      "secretstore_acl_checker";` -/
def ACL_CHECKER_CONTRACT_REGISTRY_NAME : String := "secretstore_acl_checker"

/-- External collaborator `Arc<Client>`: the read-only contract-call
gateway (`CallContract::call_contract`) and the registry resolver
(`RegistryInfo::registry_address`), modelled as function fields. -/
structure Client where
  call_contract : BlockId → Bytes → Bytes → Except String Bytes
  registry_address : String → BlockId → Option Bytes

/-- External collaborator: the ABI encoder/decoder pair that
`keys_acl_contract::functions::available_keys::call(*account)` returns —
`encode_available_keys` is the encoded call data, `decode_available_keys`
is `decoder.decode`, yielding the list of 32-byte key ids. -/
structure AbiEnv where
  encode_available_keys : Bytes → Bytes
  decode_available_keys : Bytes → Except String (List Bytes)

/-- The fields of `struct SecretStoreKeys` (the `Arc<Client>` collaborator
is passed separately; `keys_acl_contract` is the value inside the
`RwLock<Option<Address>>`). -/
structure SecretStoreKeysState where
  key_server_account : Option Bytes
  keys_acl_contract : Option Bytes
deriving DecidableEq

/-- `SecretStoreKeys::new(client, key_server_account)`: the cache starts
unset (`RwLock::new(None)`). -/
def SecretStoreKeysState.new (key_server_account : Option Bytes) :
    SecretStoreKeysState :=
  { key_server_account := key_server_account, keys_acl_contract := none }

/-- `SecretStoreKeys::keys_to_addresses`: maps each decoded key through
`key_to_address`, preserving order (the source pushes into a fresh vector
in iteration order). -/
def keys_to_addresses (keys : Option (List Bytes)) : Option (List Bytes) :=
  keys.map (fun key_values => key_values.map (fun key => key_to_address key))

/-- `<SecretStoreKeys as KeyProvider>::key_server_account`. -/
def SecretStoreKeysState.key_server_account_impl (s : SecretStoreKeysState) :
    Option Bytes :=
  s.key_server_account

/-- `<SecretStoreKeys as KeyProvider>::available_keys`: read the cached ACL
address; if unset return `None`; otherwise call the contract and decode,
mapping call errors and decode errors to `None` (`decoder.decode(&value).ok()`
turns a decode error into `None`, and `keys_to_addresses` keeps it). -/
def available_keys (env : AbiEnv) (client : Client) (s : SecretStoreKeysState)
    (block : BlockId) (account : Bytes) : Option (List Bytes) :=
  match s.keys_acl_contract with
  | some acl_contract_address =>
    match client.call_contract block acl_contract_address
        (env.encode_available_keys account) with
    | Except.ok value =>
      keys_to_addresses (env.decode_available_keys value).toOption
    | Except.error _ => none
  | none => none

/-- Rust `Option::and`: `None.and(b) = None`, `Some(_).and(b) = b`. It
consumes its receiver by value and returns a new option; it never mutates
anything. -/
def rustOptionAnd (a b : Option Bytes) : Option Bytes :=
  match a with
  | none => none
  | some _ => b

/-- `<SecretStoreKeys as KeyProvider>::update_acl_contract`, as a state
transition on the cache value. The source reads the registry, snapshots the
cache through a read guard, and when the two differ takes a write guard and
evaluates `keys_acl_contract.and(contract_address);` — an expression
statement. `Option::and` takes its receiver by value (the guard auto-derefs
and the `Copy` option is copied out), returns a fresh option, and that
result is discarded; the guard's target is never assigned, so the cached
value is unchanged on every path. -/
def update_acl_contract (client : Client) (s : SecretStoreKeysState) :
    SecretStoreKeysState :=
  let contract_address :=
    client.registry_address ACL_CHECKER_CONTRACT_REGISTRY_NAME BlockId.latest
  let current_address := s.keys_acl_contract
  if current_address ≠ contract_address then
    let _discarded := rustOptionAnd current_address contract_address
    s
  else
    s

/-- Operations on the single `RwLock<Option<Address>>` of
`SecretStoreKeys`, in program order. -/
inductive LockOp where
  | readAcquire
  | readRelease
  | writeAcquire
  | writeRelease
deriving DecidableEq

/-- The sequence of lock operations `update_acl_contract` performs on
`self.keys_acl_contract`, read off the guard scopes of the source:
the read guard is bound to `current_address`, so it is dropped only at
the end of the function body; when the comparison finds a change
(`changed = true`) the write guard `keys_acl_contract` is acquired inside
the `if` block and dropped at that block's end — before the read guard's
drop. With no change, only the read guard is acquired and dropped. -/
def update_acl_contract_lock_trace (changed : Bool) : List LockOp :=
  if changed then
    [LockOp.readAcquire, LockOp.writeAcquire, LockOp.writeRelease,
     LockOp.readRelease]
  else
    [LockOp.readAcquire, LockOp.readRelease]

/-- Whether a read lock is held just before position `i` of the trace:
more read acquisitions than read releases among the first `i` events. -/
def readHeldBefore (t : List LockOp) (i : Nat) : Bool :=
  (t.take i).count LockOp.readRelease < (t.take i).count LockOp.readAcquire

/-- Whether the trace ever acquires the write lock at a point where the
same call path still holds a read lock on the same `RwLock`. -/
def writeAcquiredWhileReadHeld (t : List LockOp) : Bool :=
  (List.range t.length).any (fun i =>
    t.getD i LockOp.readRelease == LockOp.writeAcquire && readHeldBefore t i)

/-- The sequence of lock operations `available_keys` performs: the read
guard is a temporary of the `match` scrutinee `*self.keys_acl_contract.read()`,
released when the match completes. -/
def available_keys_lock_trace : List LockOp :=
  [LockOp.readAcquire, LockOp.readRelease]

/-- `<SecretStoreKeys as KeyProvider>::available_keys` with the state
threaded explicitly: the method takes `&self`, performs only a `read()` on
the lock and never assigns a field, so the outgoing state is the incoming
one on every path. -/
def available_keys_run (env : AbiEnv) (client : Client)
    (s : SecretStoreKeysState) (block : BlockId) (account : Bytes) :
    SecretStoreKeysState × Option (List Bytes) :=
  match s.keys_acl_contract with
  | some acl_contract_address =>
    match client.call_contract block acl_contract_address
        (env.encode_available_keys account) with
    | Except.ok value =>
      (s, keys_to_addresses (env.decode_available_keys value).toOption)
    | Except.error _ => (s, none)
  | none => (s, none)

/-- `<SecretStoreKeys as KeyProvider>::key_server_account` with the state
threaded explicitly: a pure field read through `&self`. -/
def key_server_account_run (s : SecretStoreKeysState) :
    SecretStoreKeysState × Option Bytes :=
  (s, s.key_server_account)

/-- `struct StoringKeyProvider { available_keys: Option<Vec<Address>> }`
(`#[derive(Default)]` starts it at `None`). -/
structure StoringKeyProvider where
  available_keys : Option (List Bytes)
deriving DecidableEq

/-- `Default::default()` for `StoringKeyProvider`. -/
def StoringKeyProvider.new : StoringKeyProvider :=
  { available_keys := none }

/-- `StoringKeyProvider::set_available_keys`:
`self.available_keys.replace(keys.to_vec())` stores `Some(keys)`. -/
def StoringKeyProvider.set_available_keys (_s : StoringKeyProvider)
    (keys : List Bytes) : StoringKeyProvider :=
  { available_keys := some keys }

/-- `<StoringKeyProvider as KeyProvider>::key_server_account`: always
`None`. -/
def StoringKeyProvider.key_server_account_impl (_s : StoringKeyProvider) :
    Option Bytes :=
  none

/-- `<StoringKeyProvider as KeyProvider>::available_keys`: ignores the
block and account arguments and clones the stored option. -/
def StoringKeyProvider.available_keys_impl (s : StoringKeyProvider)
    (_block : BlockId) (_account : Bytes) : Option (List Bytes) :=
  s.available_keys

/-- `<StoringKeyProvider as KeyProvider>::update_acl_contract`: empty
body. -/
def StoringKeyProvider.update_acl_contract_impl (s : StoringKeyProvider) :
    StoringKeyProvider :=
  s

/-- A concrete 20-byte address (0xAAAA…AA) for closed instances. -/
def demoAddr : Bytes := List.replicate 20 170

/-- A concrete 32-byte key identifier (0xCCCC…CC) for closed instances. -/
def demoKey : Bytes := List.replicate 32 204

/-- A concrete ABI environment whose decoder reports the single key
`demoKey`. -/
def demoEnv : AbiEnv :=
  { encode_available_keys := fun account => account,
    decode_available_keys := fun _ => Except.ok [demoKey] }

/-- A concrete client: every contract call succeeds with empty output and
the registry resolves every name to `demoAddr`. -/
def demoClient : Client :=
  { call_contract := fun _ _ _ => Except.ok [],
    registry_address := fun _ _ => some demoAddr }

/-- A concrete provider state whose ACL cache holds `demoAddr`. -/
def demoState : SecretStoreKeysState :=
  { key_server_account := none, keys_acl_contract := some demoAddr }

/-- Helper: on a 20-byte address the two slice/convert steps of
`address_to_key` compose to prepending 12 zero bytes. -/
lemma address_to_key_eq (a : Bytes) (h : a.length = 20) :
    address_to_key a = List.replicate 12 0 ++ a := by
  have hextlen : (h160ToH256 a).length = 32 := by simp [h160ToH256, h]
  unfold address_to_key h256FromSlice
  rw [List.take_of_length_le (le_of_eq hextlen), hextlen]
  simp [h160ToH256]

/-- C6: for a 32-byte key, `key_to_address` is the first 10 bytes of the
key placed as the leading bytes of the address (the remaining 10 address
bytes being the zero padding), so two keys agreeing on their first 10
bytes map to the same address. -/
theorem key_to_address_first_bytes (k k' : Bytes)
    (hk : k.length = 32) (_hk' : k'.length = 32)
    (hpre : k.take 10 = k'.take 10) :
    key_to_address k = k.take 10 ++ List.replicate 10 0 ∧
    key_to_address k = key_to_address k' := by
  have h10 : (k.take 10).length = 10 := by simp [List.length_take, hk]
  constructor
  · unfold key_to_address addressFromSlice
    rw [List.take_of_length_le (by omega)]
    rw [h10]
  · unfold key_to_address
    rw [hpre]

/-- Witness for C6 at concrete keys differing only in bytes 10..32. -/
theorem key_to_address_first_bytes_witness :
    key_to_address (List.replicate 32 7) =
      (List.replicate 32 7).take 10 ++ List.replicate 10 0 ∧
    key_to_address (List.replicate 32 7) =
      key_to_address (List.replicate 10 7 ++ List.replicate 22 9) :=
  key_to_address_first_bytes _ _ (by decide) (by decide) (by decide)

/-- C7: for a 20-byte address, `address_to_key` is the 32-byte identifier
whose trailing (low-order) 20 bytes are the address and whose leading
(high-order) 12 bytes are zero. -/
theorem address_to_key_zero_extends (a : Bytes) (h : a.length = 20) :
    address_to_key a = List.replicate 12 0 ++ a ∧
    (address_to_key a).length = 32 := by
  have hid := address_to_key_eq a h
  exact ⟨hid, by rw [hid]; simp [h]⟩

/-- Witness for C7 at a concrete address. -/
theorem address_to_key_zero_extends_witness :
    address_to_key (List.replicate 20 3) =
      List.replicate 12 0 ++ List.replicate 20 3 ∧
    (address_to_key (List.replicate 20 3)).length = 32 :=
  address_to_key_zero_extends _ (by decide)

/-- C8: both codec directions are total on valid-width inputs: on a
32-byte key the slice `&key[..10]` is in range (so the checked variant
returns a value, never the panic marker) and the result is a full 20-byte
address; on a 20-byte address the result is a full 32-byte identifier. -/
theorem codec_total_on_valid_widths (k a : Bytes)
    (hk : k.length = 32) (ha : a.length = 20) :
    key_to_address_checked k = some (key_to_address k) ∧
    (key_to_address k).length = 20 ∧
    (address_to_key a).length = 32 := by
  refine ⟨?_, ?_, ?_⟩
  · unfold key_to_address_checked
    rw [if_pos (by omega)]
    rfl
  · unfold key_to_address addressFromSlice
    simp [List.length_take, List.take_take, hk]
  · rw [address_to_key_eq a ha]
    simp [ha]

/-- Witness for C8 at concrete valid-width inputs. -/
theorem codec_total_on_valid_widths_witness :
    key_to_address_checked (List.replicate 32 1) =
      some (key_to_address (List.replicate 32 1)) ∧
    (key_to_address (List.replicate 32 1)).length = 20 ∧
    (address_to_key (List.replicate 20 2)).length = 32 :=
  codec_total_on_valid_widths _ _ (by decide) (by decide)

/-- C1 fails on the code: for the address 0xAA00…00 (and any other nonzero
address) the round trip `key_to_address (address_to_key a)` returns the
zero address, not `a` — `address_to_key` puts the address in the trailing
bytes while `key_to_address` reads the leading bytes. -/
theorem roundtrip_not_identity_counterexample :
    ¬ key_to_address (address_to_key (170 :: List.replicate 19 0)) =
        170 :: List.replicate 19 0 := by
  decide

/-- C1 amended: for every 20-byte address `a`,
`key_to_address (address_to_key a)` is the all-zero address; the round
trip recovers `a` exactly when `a` is the zero address. -/
theorem roundtrip_collapses_to_zero (a : Bytes) (h : a.length = 20) :
    key_to_address (address_to_key a) = List.replicate 20 0 ∧
    (key_to_address (address_to_key a) = a ↔ a = List.replicate 20 0) := by
  have hzero : key_to_address (address_to_key a) = List.replicate 20 0 := by
    rw [address_to_key_eq a h]
    unfold key_to_address
    rw [List.take_append_eq_append_take]
    simp [List.take_replicate]
    decide
  refine ⟨hzero, ?_⟩
  rw [hzero]
  exact ⟨fun he => he.symm, fun he => he.symm⟩

/-- Witness for the amended C1 at a concrete address. -/
theorem roundtrip_collapses_to_zero_witness :
    key_to_address (address_to_key (170 :: List.replicate 19 0)) =
      List.replicate 20 0 ∧
    (key_to_address (address_to_key (170 :: List.replicate 19 0)) =
        170 :: List.replicate 19 0 ↔
      170 :: List.replicate 19 0 = List.replicate 20 0) :=
  roundtrip_collapses_to_zero _ (by decide)

/-- C4: `available_keys` returns `none` exactly in three cases — the ACL
cache is unset, the gateway call returns an error, or decoding the call
output fails — and in all three the result is the very same `none` value,
so the caller cannot tell them apart. -/
theorem available_keys_none_iff (env : AbiEnv) (client : Client)
    (s : SecretStoreKeysState) (block : BlockId) (account : Bytes) :
    available_keys env client s block account = none ↔
      (s.keys_acl_contract = none ∨
       ∃ addr, s.keys_acl_contract = some addr ∧
         ((∃ e, client.call_contract block addr
             (env.encode_available_keys account) = Except.error e) ∨
          (∃ v, client.call_contract block addr
              (env.encode_available_keys account) = Except.ok v ∧
            ∃ e, env.decode_available_keys v = Except.error e))) := by
  cases hacl : s.keys_acl_contract with
  | none => simp [available_keys, hacl]
  | some addr =>
    cases hcall : client.call_contract block addr
        (env.encode_available_keys account) with
    | error e => simp [available_keys, hacl, hcall]
    | ok v =>
      cases hdec : env.decode_available_keys v with
      | error e =>
        simp [available_keys, keys_to_addresses, Except.toOption, hacl,
          hcall, hdec]
      | ok ks =>
        simp [available_keys, keys_to_addresses, Except.toOption, hacl,
          hcall, hdec]

/-- C5: with the ACL address cached and both the gateway call and the
decode succeeding, `available_keys` is `some` of the decoded key list
mapped elementwise through `key_to_address` (an order- and
length-preserving map); a contract reporting no keys yields `some []`,
which is not `none`. -/
theorem available_keys_success (env : AbiEnv) (client : Client)
    (s : SecretStoreKeysState) (block : BlockId) (account : Bytes)
    (addr v : Bytes) (ks : List Bytes)
    (haddr : s.keys_acl_contract = some addr)
    (hcall : client.call_contract block addr
        (env.encode_available_keys account) = Except.ok v)
    (hdec : env.decode_available_keys v = Except.ok ks) :
    available_keys env client s block account =
      some (ks.map (fun key => key_to_address key)) ∧
    (ks.map (fun key => key_to_address key)).length = ks.length ∧
    available_keys env client s block account ≠ none ∧
    (ks = [] → available_keys env client s block account = some []) := by
  have hmain : available_keys env client s block account =
      some (ks.map (fun key => key_to_address key)) := by
    simp [available_keys, keys_to_addresses, Except.toOption, haddr, hcall,
      hdec]
  refine ⟨hmain, by simp, by simp [hmain], ?_⟩
  intro hnil
  rw [hmain, hnil]
  rfl

/-- Witness for C5 on the concrete demo environment, where the decoder
reports the single key `demoKey`. -/
theorem available_keys_success_witness :
    available_keys demoEnv demoClient demoState BlockId.latest demoAddr =
      some ([demoKey].map (fun key => key_to_address key)) ∧
    ([demoKey].map (fun key => key_to_address key)).length =
      [demoKey].length ∧
    available_keys demoEnv demoClient demoState BlockId.latest demoAddr ≠
      none ∧
    ([demoKey] = [] →
      available_keys demoEnv demoClient demoState BlockId.latest demoAddr =
        some []) :=
  available_keys_success demoEnv demoClient demoState BlockId.latest
    demoAddr demoAddr [] [demoKey] rfl rfl rfl

/-- C2 fails on the code: starting from an unset cache, with the registry
resolving to `demoAddr` (different from the cached `none`), the refresh
leaves the cache at `none` instead of storing `some demoAddr` — the
`Option::and` expression's result is discarded, so nothing is written
through the write guard. -/
theorem update_acl_contract_discards_write :
    (update_acl_contract demoClient
        (SecretStoreKeysState.new none)).keys_acl_contract = none ∧
    demoClient.registry_address ACL_CHECKER_CONTRACT_REGISTRY_NAME
      BlockId.latest = some demoAddr ∧
    (none : Option Bytes) ≠ some demoAddr := by
  refine ⟨rfl, rfl, by simp⟩

/-- C3 fails on the code: whenever the resolved address differs from the
cached one (`changed = true`), the trace of lock operations acquires the
write lock at a point where the read guard bound to `current_address` is
still held — the self-deadlock pattern the claim forbids. -/
theorem update_acl_write_lock_while_read_held :
    writeAcquiredWhileReadHeld (update_acl_contract_lock_trace true) =
      true := by
  decide

/-- C9: `StoringKeyProvider.available_keys` ignores the block and account
arguments and returns the stored option (`none` when never populated,
the stored list after `set_available_keys`); `key_server_account` is
always `none` and `update_acl_contract` changes nothing. -/
theorem storing_key_provider_behaviour (s : StoringKeyProvider)
    (b b' : BlockId) (a a' : Bytes) (ks : List Bytes) :
    s.available_keys_impl b a = s.available_keys_impl b' a' ∧
    s.available_keys_impl b a = s.available_keys ∧
    StoringKeyProvider.new.available_keys_impl b a = none ∧
    (s.set_available_keys ks).available_keys_impl b a = some ks ∧
    s.key_server_account_impl = none ∧
    s.update_acl_contract_impl = s := by
  exact ⟨rfl, rfl, rfl, rfl, rfl, rfl⟩

/-- C10: the query methods of `SecretStoreKeys` leave every field
unchanged: threading the state through `available_keys` and
`key_server_account` returns the incoming state on every path — call
success, call failure, decode failure, or unset cache alike. -/
theorem secret_store_queries_preserve_state (env : AbiEnv) (client : Client)
    (s : SecretStoreKeysState) (block : BlockId) (account : Bytes) :
    (available_keys_run env client s block account).1 = s ∧
    (key_server_account_run s).1 = s ∧
    (available_keys_run env client s block account).1.keys_acl_contract =
      s.keys_acl_contract ∧
    (available_keys_run env client s block account).1.key_server_account =
      s.key_server_account := by
  have hrun : (available_keys_run env client s block account).1 = s := by
    cases hacl : s.keys_acl_contract with
    | none => simp [available_keys_run, hacl]
    | some addr =>
      cases hcall : client.call_contract block addr
          (env.encode_available_keys account) with
      | error e => simp [available_keys_run, hacl, hcall]
      | ok v => simp [available_keys_run, hacl, hcall]
  exact ⟨hrun, rfl, by rw [hrun], by rw [hrun]⟩

end KeyServerKeys
